import Mathlib

/-!
Shallow embedding of the LLM guessing-game experiment
(`run_game.py` and `baseline.py`).

Strings are modelled as `List Char`; Python's `str.lower`, `str.strip`
and the `in` substring test are embedded explicitly.  The responder
gateway (`call_api`) is modelled as a stream of results, one per API
call; raising an exception is modelled with `Except`.  The unbounded
repair `while` loop is modelled with explicit fuel: returning `none`
for every fuel bound represents non-termination.
-/

namespace GuessGame

/-- ASCII case lowering of one character, as Python's `str.lower` acts on
the characters appearing in this protocol. -/
def lowerChar (c : Char) : Char :=
  if 'A' ≤ c ∧ c ≤ 'Z' then Char.ofNat (c.toNat + 32) else c

/-- Python `s.lower()`. -/
def pyLower (s : List Char) : List Char := s.map lowerChar

/-- Python's notion of whitespace stripped by `str.strip()` (ASCII part). -/
def isPySpace (c : Char) : Bool :=
  c = ' ' || c = '\t' || c = '\n' || c = '\r' ||
  c = Char.ofNat 11 || c = Char.ofNat 12

/-- Python `s.strip()`: drop leading and trailing whitespace. -/
def pyStrip (s : List Char) : List Char :=
  ((s.dropWhile isPySpace).reverse.dropWhile isPySpace).reverse

/-- `response.lower().strip()` from `run_game.py` line 178. -/
def normalize (s : List Char) : List Char := pyStrip (pyLower s)

/-- Response Classification (spec section 4.1; `run_game.py` lines 177-189:
the repair-loop membership test together with the equality test against
the exact string `correct`). -/
inductive ResponseClass
  | AFFIRMATIVE
  | NEGATIVE
  | MALFORMED
deriving DecidableEq, Repr

/-- The Protocol Conformance Checker: `response_lower` is compared for
exact equality with the two protocol strings after normalization. -/
def classify (s : List Char) : ResponseClass :=
  let r := normalize s
  if r = "correct".data then ResponseClass.AFFIRMATIVE
  else if r = "not correct".data then ResponseClass.NEGATIVE
  else ResponseClass.MALFORMED

/-- An exception raised by the underlying provider client inside the
gateway call. -/
inductive ApiError
  | transport
deriving DecidableEq, Repr

/-- `run_game.py` `call_api` (lines 55-139): dispatches to the provider;
on any exception it prints and re-raises (lines 137-139), so the
transport outcome passes through unchanged. -/
def call_api (transportResult : Except ApiError (List Char)) :
    Except ApiError (List Char) :=
  match transportResult with
  | Except.ok s => Except.ok s
  | Except.error e => Except.error e

/-- `baseline.py` `call_openai_api` (lines 14-23): on an exception it
prints and falls off the end of the function, so the caller receives
Python `None` (`Except.ok none`) instead of the exception. -/
def call_openai_api (transportResult : Except ApiError (List Char)) :
    Except ApiError (Option (List Char)) :=
  match transportResult with
  | Except.ok s => Except.ok (some s)
  | Except.error _ => Except.ok none

/-- The responder gateway as the driver sees it: the result of the i-th
gateway call of one game (index 0 is the setup call). -/
def Responder : Type := Nat → Except ApiError (List Char)

/-- How `play_single_game` ends: `return attempts` (success),
`return None` (exhausted), an uncaught gateway exception, or `diverged`
when the unbounded repair loop fails to exit within the given fuel. -/
inductive Outcome
  | success (attempts : Nat)
  | exhausted
  | apiError (e : ApiError)
  | diverged
deriving DecidableEq, Repr

/-- Lines 172-187 of `run_game.py`: obtain the reply to the current
guess, then `while response_lower not in ['correct', 'not correct']`
append the correction turn and obtain a new reply.  `i` is the index of
the next gateway call.  The result is the first reply classifying
non-MALFORMED together with the next call index; `Except.error` when a
gateway call raises; `Except.ok none` when `fuel` calls did not suffice
(the source loop is unbounded, so `none` at every fuel models an
infinite repair loop). -/
def repairCalls (ρ : Responder) (i : Nat) :
    Nat → Except ApiError (Option (List Char × Nat))
  | 0 => Except.ok none
  | fuel + 1 =>
    match ρ i with
    | Except.error e => Except.error e
    | Except.ok r =>
      if classify r = ResponseClass.MALFORMED then repairCalls ρ (i + 1) fuel
      else Except.ok (some (r, i + 1))

/-- Lines 165-193 of `run_game.py`: the GUESSING loop.  `attempts` is
the counter so far and `i` the next gateway call index.  Returns the
outcome together with the list of guesses submitted, in submission
order. -/
def guessLoop (ρ : Responder) (fuel : Nat) :
    List Nat → Nat → Nat → Outcome × List Nat
  | [], _, _ => (Outcome.exhausted, [])
  | g :: gs, attempts, i =>
    match repairCalls ρ i fuel with
    | Except.error e => (Outcome.apiError e, [g])
    | Except.ok none => (Outcome.diverged, [g])
    | Except.ok (some (r, i2)) =>
      if classify r = ResponseClass.AFFIRMATIVE then
        (Outcome.success (attempts + 1), [g])
      else
        let rest := guessLoop ρ fuel gs (attempts + 1) i2
        (rest.1, g :: rest.2)

/-- `run_game.py` `play_single_game` (lines 141-193): the setup call,
whose reply is appended but never parsed, then the guessing loop over
the shuffled guess sequence with the attempt counter starting at 0. -/
def play_single_game (ρ : Responder) (fuel : Nat)
    (guess_sequence : List Nat) : Outcome :=
  match ρ 0 with
  | Except.error e => Outcome.apiError e
  | Except.ok _ => (guessLoop ρ fuel guess_sequence 0 1).1

/-- `list(range(1, NUMBER_RANGE + 1))` (line 162): the guess sequence
before shuffling. -/
def initialGuessSequence (n : Nat) : List Nat := List.range' 1 n

/-- One iteration of the main loop (`run_game.py` lines 199-209): a game
returning `attempts_needed` increments
`attempt_counts[attempts_needed - 1]`; a failed game (Python `None`)
increments nothing. -/
def recordResult (counts : List Nat) (attempts_needed : Option Nat) :
    List Nat :=
  match attempts_needed with
  | some a => counts.set (a - 1) (counts.getD (a - 1) 0 + 1)
  | none => counts

/-- The `attempt_counts` array after the main loop: `[0] * NUMBER_RANGE`
(line 53) updated by every game outcome in order. -/
def attempt_counts (number_range : Nat) (outcomes : List (Option Nat)) :
    List Nat :=
  outcomes.foldl recordResult (List.replicate number_range 0)

/-- Lines 218-225 of `run_game.py`: the cumulative-percentage loop;
`acc` is `cumulative_sum`.  The float arithmetic is modelled in exact
rationals. -/
def cumulativeLoop (num_games : Nat) : List Nat → Nat → List ℚ
  | [], _ => []
  | c :: cs, acc =>
    (((acc + c : Nat) : ℚ) / num_games * 100) ::
      cumulativeLoop num_games cs (acc + c)

/-- The `cumulative_percentage` list of `run_game.py` (started from
`cumulative_sum = 0`, line 219). -/
def cumulative_percentage (num_games : Nat) (counts : List Nat) :
    List ℚ :=
  cumulativeLoop num_games counts 0

/-- The serialized Experiment Result record (`run_game.py` lines
234-244). -/
structure Results where
  api_provider : List Char
  model : List Char
  timestamp : List Char
  number_range : Nat
  num_games : Nat
  attempt_counts : List Nat
  cumulative_percentage : List ℚ
  games_completed : Nat
  games_failed : Nat

/-- Lines 234-244 of `run_game.py`: building the `results` dictionary
from the configuration and the final `attempt_counts`. -/
def mkResults (api_provider model timestamp : List Char)
    (number_range num_games : Nat) (counts : List Nat) : Results :=
  { api_provider := api_provider
    model := model
    timestamp := timestamp
    number_range := number_range
    num_games := num_games
    attempt_counts := counts
    cumulative_percentage := cumulative_percentage num_games counts
    games_completed := counts.sum
    games_failed := num_games - counts.sum }

end GuessGame

namespace GuessGame

/-- C1: classification is total and by exact equality after lowering and
trimming: AFFIRMATIVE iff the normalized string is `correct`, NEGATIVE iff
it is `not correct`, MALFORMED otherwise; with the four concrete examples
from the spec, and `not correct` never AFFIRMATIVE. -/
theorem classify_exact_equality_total :
    (∀ s : List Char,
      (classify s = ResponseClass.AFFIRMATIVE ↔ normalize s = "correct".data) ∧
      (classify s = ResponseClass.NEGATIVE ↔ normalize s = "not correct".data) ∧
      (classify s = ResponseClass.MALFORMED ↔
        (normalize s ≠ "correct".data ∧ normalize s ≠ "not correct".data))) ∧
    classify " Correct ".data = ResponseClass.AFFIRMATIVE ∧
    classify "Not Correct".data = ResponseClass.NEGATIVE ∧
    classify "correct!".data = ResponseClass.MALFORMED ∧
    classify "not correct".data ≠ ResponseClass.AFFIRMATIVE := by
  refine ⟨fun s => ?_, by decide, by decide, by decide, by decide⟩
  unfold classify
  by_cases h1 : normalize s = "correct".data
  · simp [h1]
  · by_cases h2 : normalize s = "not correct".data
    · simp [h1, h2]
    · simp [h1, h2]

/-- Witness for `classify_exact_equality_total`: the characterization
applied at the concrete input `" Correct "`. -/
theorem classify_exact_equality_total_witness :
    classify " Correct ".data = ResponseClass.AFFIRMATIVE ∧
    normalize " Correct ".data = "correct".data :=
  ⟨((classify_exact_equality_total.1 " Correct ".data).1).2 (by decide),
   by decide⟩

/-- If the replies at call indices i, ..., i+m-1 classify NEGATIVE and
the reply at i+m classifies AFFIRMATIVE, the guessing loop succeeds on
its (m+1)-st remaining guess. -/
theorem guessLoop_success_of_script (ρ : Responder) (fuel : Nat)
    (hfuel : 1 ≤ fuel) :
    ∀ (l : List Nat) (m a i : Nat), m < l.length →
      (∀ j, j < m → ∃ r, ρ (i + j) = Except.ok r ∧
        classify r = ResponseClass.NEGATIVE) →
      (∃ r, ρ (i + m) = Except.ok r ∧
        classify r = ResponseClass.AFFIRMATIVE) →
      (guessLoop ρ fuel l a i).1 = Outcome.success (a + m + 1) := by
  intro l
  induction l with
  | nil => intro m a i hm; simp at hm
  | cons g gs ih =>
    intro m a i hm hneg haff
    obtain ⟨f, rfl⟩ : ∃ f, fuel = f + 1 := ⟨fuel - 1, by omega⟩
    cases m with
    | zero =>
      obtain ⟨r, hr, hcl⟩ := haff
      rw [Nat.add_zero] at hr
      simp [guessLoop, repairCalls, hr, hcl]
    | succ m2 =>
      obtain ⟨r, hr, hcl⟩ := hneg 0 (Nat.succ_pos m2)
      rw [Nat.add_zero] at hr
      rw [show a + (m2 + 1) + 1 = (a + 1) + m2 + 1 by omega]
      have hrec := ih m2 (a + 1) (i + 1)
        (by simp at hm; omega)
        (fun j hj => by
          have h2 := hneg (j + 1) (by omega)
          rwa [show i + (j + 1) = i + 1 + j by omega] at h2)
        (by rwa [show i + (m2 + 1) = i + 1 + m2 by omega] at haff)
      simp [guessLoop, repairCalls, hr, hcl, hrec]

/-- C2: a scripted responder whose guess replies classify NEGATIVE for
the first k-1 guesses and AFFIRMATIVE on the k-th yields attempt count
k; a REPAIR iteration only advances the gateway-call position, never the
attempt counter or the guess-sequence position; and a responder emitting
one MALFORMED reply on the first guess followed by AFFIRMATIVE yields
attempt count 1. -/
theorem scripted_responder_attempt_count :
    (∀ (ρ : Responder) (fuel : Nat) (l : List Nat) (k : Nat),
      1 ≤ fuel → 1 ≤ k → k ≤ l.length →
      (∃ r0, ρ 0 = Except.ok r0) →
      (∀ j, 1 ≤ j → j < k → ∃ r, ρ j = Except.ok r ∧
        classify r = ResponseClass.NEGATIVE) →
      (∃ r, ρ k = Except.ok r ∧ classify r = ResponseClass.AFFIRMATIVE) →
      play_single_game ρ fuel l = Outcome.success k) ∧
    (∀ (ρ : Responder) (i fuel : Nat) (r : List Char),
      ρ i = Except.ok r → classify r = ResponseClass.MALFORMED →
      repairCalls ρ i (fuel + 1) = repairCalls ρ (i + 1) fuel) ∧
    (∀ (ρ : Responder) (fuel : Nat) (l : List Nat),
      2 ≤ fuel → 1 ≤ l.length →
      (∃ r0, ρ 0 = Except.ok r0) →
      (∃ r, ρ 1 = Except.ok r ∧ classify r = ResponseClass.MALFORMED) →
      (∃ r, ρ 2 = Except.ok r ∧ classify r = ResponseClass.AFFIRMATIVE) →
      play_single_game ρ fuel l = Outcome.success 1) := by
  refine ⟨?_, ?_, ?_⟩
  · intro ρ fuel l k hfuel hk hkl ⟨r0, hr0⟩ hneg haff
    rw [show k = 0 + (k - 1) + 1 by omega]
    simp only [play_single_game, hr0]
    exact guessLoop_success_of_script ρ fuel hfuel l (k - 1) 0 1
      (by omega)
      (fun j hj => by
        have h2 := hneg (j + 1) (by omega) (by omega)
        rwa [show j + 1 = 1 + j by omega] at h2)
      (by rwa [show k = 1 + (k - 1) by omega] at haff)
  · intro ρ i fuel r hr hcl
    simp only [repairCalls, hr, hcl, if_pos]
  · intro ρ fuel l hfuel hl ⟨r0, hr0⟩ ⟨r1, hr1, hcl1⟩ ⟨r2, hr2, hcl2⟩
    obtain ⟨f, rfl⟩ : ∃ f, fuel = f + 2 := ⟨fuel - 2, by omega⟩
    cases l with
    | nil => simp at hl
    | cons g gs =>
      simp [play_single_game, hr0, guessLoop, repairCalls, hr1, hcl1,
        hr2, hcl2]

/-- Witness for `scripted_responder_attempt_count`: a concrete scripted
responder answering `not correct` to guess 1 and `correct` to guess 2
gives attempt count 2. -/
theorem scripted_responder_attempt_count_witness :
    play_single_game
      (fun i => Except.ok
        ((["ok", "not correct", "correct"].map String.data).getD i []))
      1 [5, 7] = Outcome.success 2 :=
  scripted_responder_attempt_count.1 _ 1 [5, 7] 2 (by decide) (by decide)
    (by decide) ⟨"ok".data, rfl⟩
    (fun j h1 h2 => by
      have hj : j = 1 := by omega
      subst hj
      exact ⟨"not correct".data, rfl, by decide⟩)
    ⟨"correct".data, rfl, by decide⟩

/-- Under protocol conformance, the guessing loop either exhausts the
sequence or succeeds within as many attempts as there are guesses
left. -/
theorem guessLoop_conformant (ρ : Responder) (fuel : Nat)
    (hfuel : 1 ≤ fuel)
    (hconf : ∀ j r, ρ j = Except.ok r → classify r ≠ ResponseClass.MALFORMED)
    (hok : ∀ j, ∃ r, ρ j = Except.ok r) :
    ∀ (l : List Nat) (a i : Nat),
      (guessLoop ρ fuel l a i).1 = Outcome.exhausted ∨
      ∃ k, 1 ≤ k ∧ k ≤ l.length ∧
        (guessLoop ρ fuel l a i).1 = Outcome.success (a + k) := by
  intro l
  induction l with
  | nil => intro a i; left; simp [guessLoop]
  | cons g gs ih =>
    intro a i
    obtain ⟨f, rfl⟩ : ∃ f, fuel = f + 1 := ⟨fuel - 1, by omega⟩
    obtain ⟨r, hr⟩ := hok i
    have hm := hconf i r hr
    by_cases hcl : classify r = ResponseClass.AFFIRMATIVE
    · right
      refine ⟨1, Nat.le_refl 1, by simp, ?_⟩
      simp [guessLoop, repairCalls, hr, hm, hcl]
    · have hv : (guessLoop ρ (f + 1) (g :: gs) a i).1
          = (guessLoop ρ (f + 1) gs (a + 1) (i + 1)).1 := by
        simp [guessLoop, repairCalls, hr, hm, hcl]
      rcases ih (a + 1) (i + 1) with h | ⟨k, hk1, hk2, hk3⟩
      · left; rw [hv, h]
      · right
        refine ⟨k + 1, by omega, by simp; omega, ?_⟩
        rw [hv, hk3]
        congr 1
        omega

/-- Against a responder every reply of which is MALFORMED, the repair
loop exits within no fuel bound at all. -/
theorem repairCalls_all_malformed (ρ : Responder)
    (h : ∀ j, ∃ r, ρ j = Except.ok r ∧ classify r = ResponseClass.MALFORMED) :
    ∀ (fuel i : Nat), repairCalls ρ i fuel = Except.ok none := by
  intro fuel
  induction fuel with
  | zero => intro i; rfl
  | succ f ih =>
    intro i
    obtain ⟨r, hr, hcl⟩ := h i
    simp [repairCalls, hr, hcl, ih]

/-- C8: if every reply classifies AFFIRMATIVE or NEGATIVE, a game ends
after at most as many attempts as there are guesses (success within the
sequence length, or exhaustion); a responder whose every reply is
MALFORMED keeps the uncapped repair loop running beyond every fuel
bound. -/
theorem repair_loop_termination :
    (∀ (ρ : Responder) (fuel : Nat) (l : List Nat),
      1 ≤ fuel →
      (∀ j r, ρ j = Except.ok r → classify r ≠ ResponseClass.MALFORMED) →
      (∀ j, ∃ r, ρ j = Except.ok r) →
      play_single_game ρ fuel l = Outcome.exhausted ∨
      ∃ k, 1 ≤ k ∧ k ≤ l.length ∧
        play_single_game ρ fuel l = Outcome.success k) ∧
    (∀ (ρ : Responder) (l : List Nat),
      (∀ j, ∃ r, ρ j = Except.ok r ∧
        classify r = ResponseClass.MALFORMED) →
      l ≠ [] →
      ∀ fuel, play_single_game ρ fuel l = Outcome.diverged) := by
  constructor
  · intro ρ fuel l hfuel hconf hok
    obtain ⟨r0, hr0⟩ := hok 0
    have h := guessLoop_conformant ρ fuel hfuel hconf hok l 0 1
    simp only [play_single_game, hr0]
    simpa using h
  · intro ρ l h hl fuel
    obtain ⟨r0, hr0, _⟩ := h 0
    cases l with
    | nil => exact absurd rfl hl
    | cons g gs =>
      simp [play_single_game, hr0, guessLoop,
        repairCalls_all_malformed ρ h fuel 1]

/-- Witness for `repair_loop_termination`: an always-NEGATIVE responder
on a one-guess sequence, and an always-MALFORMED responder on the same
sequence at fuel 5. -/
theorem repair_loop_termination_witness :
    (play_single_game (fun _ => Except.ok "not correct".data) 1 [3]
        = Outcome.exhausted ∨
      ∃ k, 1 ≤ k ∧ k ≤ [3].length ∧
        play_single_game (fun _ => Except.ok "not correct".data) 1 [3]
          = Outcome.success k) ∧
    play_single_game (fun _ => Except.ok "hmm".data) 5 [3]
      = Outcome.diverged :=
  ⟨repair_loop_termination.1 _ 1 [3] (by decide)
      (fun j r h => by cases h; decide) (fun j => ⟨"not correct".data, rfl⟩),
    repair_loop_termination.2 _ [3]
      (fun j => ⟨"hmm".data, rfl, by decide⟩) (by simp) 5⟩

/-- The list of submitted guesses is always an initial segment of the
guess sequence. -/
theorem guessLoop_trace_take (ρ : Responder) (fuel : Nat) :
    ∀ (l : List Nat) (a i : Nat),
      (guessLoop ρ fuel l a i).2
        = l.take (guessLoop ρ fuel l a i).2.length := by
  intro l
  induction l with
  | nil => intro a i; simp [guessLoop]
  | cons g gs ih =>
    intro a i
    cases hrc : repairCalls ρ i fuel with
    | error e => simp [guessLoop, hrc]
    | ok o =>
      cases o with
      | none => simp [guessLoop, hrc]
      | some p =>
        by_cases hcl : classify p.1 = ResponseClass.AFFIRMATIVE
        · simp [guessLoop, hrc, hcl]
        · have h2 := ih (a + 1) p.2
          simp [guessLoop, hrc, hcl]
          exact h2

/-- On success the attempt count equals the number of submitted guesses
plus the starting counter. -/
theorem guessLoop_success_trace_length (ρ : Responder) (fuel : Nat) :
    ∀ (l : List Nat) (a i k : Nat),
      (guessLoop ρ fuel l a i).1 = Outcome.success k →
      k = a + (guessLoop ρ fuel l a i).2.length := by
  intro l
  induction l with
  | nil => intro a i k h; simp [guessLoop] at h
  | cons g gs ih =>
    intro a i k h
    cases hrc : repairCalls ρ i fuel with
    | error e => rw [guessLoop, hrc] at h ⊢; simp at h
    | ok o =>
      cases o with
      | none => rw [guessLoop, hrc] at h ⊢; simp at h
      | some p =>
        by_cases hcl : classify p.1 = ResponseClass.AFFIRMATIVE
        · rw [guessLoop, hrc] at h ⊢
          simp [hcl] at h ⊢
          omega
        · rw [guessLoop, hrc] at h ⊢
          simp [hcl] at h ⊢
          have h3 := ih (a + 1) p.2 k h
          omega

/-- C5: a shuffled guess sequence is a bijection onto [1, N] (each value
appears exactly once), the submitted guesses are always an initial
segment of the sequence, and a game succeeding on attempt k submitted
exactly the first k elements of the sequence in order. -/
theorem guess_sequence_bijection_in_order :
    (∀ (n : Nat) (l : List Nat), l.Perm (initialGuessSequence n) →
      ∀ x : Nat, l.count x = if 1 ≤ x ∧ x ≤ n then 1 else 0) ∧
    (∀ (ρ : Responder) (fuel : Nat) (l : List Nat) (a i : Nat),
      (guessLoop ρ fuel l a i).2
        = l.take (guessLoop ρ fuel l a i).2.length) ∧
    (∀ (ρ : Responder) (fuel : Nat) (l : List Nat) (i k : Nat),
      (guessLoop ρ fuel l 0 i).1 = Outcome.success k →
      (guessLoop ρ fuel l 0 i).2 = l.take k) := by
  refine ⟨?_, guessLoop_trace_take, ?_⟩
  · intro n l hperm x
    rw [hperm.count_eq]
    by_cases hx : 1 ≤ x ∧ x ≤ n
    · rw [if_pos hx]
      exact List.count_eq_one_of_mem (List.nodup_range' 1 n)
        (List.mem_range'_1.2 ⟨hx.1, by omega⟩)
    · rw [if_neg hx]
      exact List.count_eq_zero_of_not_mem
        (fun hmem => hx (by have := List.mem_range'_1.1 hmem; omega))
  · intro ρ fuel l i k h
    have h1 := guessLoop_trace_take ρ fuel l 0 i
    have h2 := guessLoop_success_trace_length ρ fuel l 0 i k h
    rw [h1]
    congr 1
    omega

/-- Witness for `guess_sequence_bijection_in_order`: the shuffle
[2, 3, 1] of [1, 3] counts the value 3 exactly once, and a game that
succeeds on attempt 2 submitted exactly [2, 3]. -/
theorem guess_sequence_bijection_in_order_witness :
    List.count 3 [2, 3, 1] = (if 1 ≤ 3 ∧ 3 ≤ 3 then 1 else 0) ∧
    (guessLoop (fun _ => Except.ok "not correct".data) 1 [2, 3, 1] 0 1).2
      = List.take
          (guessLoop (fun _ => Except.ok "not correct".data) 1
            [2, 3, 1] 0 1).2.length [2, 3, 1] :=
  ⟨guess_sequence_bijection_in_order.1 3 [2, 3, 1] (by decide) 3,
    guess_sequence_bijection_in_order.2.1 _ 1 [2, 3, 1] 0 1⟩

theorem getD_set_self (v : Nat) :
    ∀ (l : List Nat) (i : Nat), i < l.length →
      (l.set i v).getD i 0 = v := by
  intro l
  induction l with
  | nil => intro i h; simp at h
  | cons a t ih =>
    intro i h
    cases i with
    | zero => rfl
    | succ j =>
      simp only [List.set, List.getD_cons_succ]
      exact ih j (by simp at h; omega)

theorem getD_set_ne (v : Nat) :
    ∀ (l : List Nat) (i j : Nat), i ≠ j →
      (l.set i v).getD j 0 = l.getD j 0 := by
  intro l
  induction l with
  | nil => intro i j h; simp [List.set]
  | cons a t ih =>
    intro i j h
    cases i with
    | zero =>
      cases j with
      | zero => exact absurd rfl h
      | succ j2 => rfl
    | succ i2 =>
      cases j with
      | zero => rfl
      | succ j2 =>
        simp only [List.set, List.getD_cons_succ]
        exact ih i2 j2 (by omega)

theorem sum_set_getD :
    ∀ (l : List Nat) (i : Nat), i < l.length →
      (l.set i (l.getD i 0 + 1)).sum = l.sum + 1 := by
  intro l
  induction l with
  | nil => intro i h; simp at h
  | cons a t ih =>
    intro i h
    cases i with
    | zero => simp [List.set]; omega
    | succ j =>
      simp only [List.set, List.getD_cons_succ, List.sum_cons]
      rw [ih j (by simp at h; omega)]
      omega

theorem foldl_record_length :
    ∀ (os : List (Option Nat)) (counts : List Nat),
      (os.foldl recordResult counts).length = counts.length := by
  intro os
  induction os with
  | nil => intro counts; rfl
  | cons o os ih =>
    intro counts
    cases o with
    | none => exact ih counts
    | some a =>
      simp only [List.foldl_cons, recordResult]
      rw [ih]
      simp

theorem getD_replicate_zero : ∀ (n b : Nat),
    (List.replicate n (0 : Nat)).getD b 0 = 0 := by
  intro n
  induction n with
  | zero => intro b; simp [List.replicate]
  | succ m ih =>
    intro b
    cases b with
    | zero => rfl
    | succ b2 =>
      simp only [List.replicate, List.getD_cons_succ]
      exact ih b2

theorem sum_replicate_zero : ∀ n : Nat,
    (List.replicate n (0 : Nat)).sum = 0 := by
  intro n
  induction n with
  | zero => rfl
  | succ m ih => simp [List.replicate, ih]

/-- Each histogram bucket counts exactly the games whose attempt count
addresses it. -/
theorem foldl_record_getD (n : Nat) :
    ∀ (os : List (Option Nat)) (counts : List Nat), counts.length = n →
      (∀ a : Nat, some a ∈ os → 1 ≤ a ∧ a ≤ n) →
      ∀ b : Nat, b < n →
        (os.foldl recordResult counts).getD b 0
          = counts.getD b 0 + os.count (some (b + 1)) := by
  intro os
  induction os with
  | nil => intro counts hlen hv b hb; simp
  | cons o os ih =>
    intro counts hlen hv b hb
    cases o with
    | none =>
      simp only [List.foldl_cons, recordResult]
      rw [ih counts hlen (fun a ha => hv a (by simp [ha])) b hb]
      simp [List.count_cons]
    | some a =>
      have ha := hv a (by simp)
      simp only [List.foldl_cons, recordResult]
      rw [ih _ (by rw [List.length_set]; exact hlen)
        (fun x hx => hv x (by simp [hx])) b hb]
      by_cases hab : a = b + 1
      · subst hab
        simp only [Nat.add_sub_cancel]
        rw [getD_set_self _ counts b (by omega)]
        simp [List.count_cons]
        omega
      · rw [getD_set_ne _ counts (a - 1) b (by omega)]
        have hne : b + 1 ≠ a := by omega
        simp [List.count_cons, hne]

/-- The histogram total together with the failed-game count accounts for
every game run. -/
theorem foldl_record_sum (n : Nat) :
    ∀ (os : List (Option Nat)) (counts : List Nat), counts.length = n →
      (∀ a : Nat, some a ∈ os → 1 ≤ a ∧ a ≤ n) →
      (os.foldl recordResult counts).sum + os.count none
        = counts.sum + os.length := by
  intro os
  induction os with
  | nil => intro counts hlen hv; simp
  | cons o os ih =>
    intro counts hlen hv
    cases o with
    | none =>
      simp only [List.foldl_cons, recordResult, List.count_cons,
        List.length_cons]
      have h2 := ih counts hlen (fun a ha => hv a (by simp [ha]))
      simp
      omega
    | some a =>
      have ha := hv a (by simp)
      simp only [List.foldl_cons, recordResult, List.count_cons,
        List.length_cons]
      have h2 := ih (counts.set (a - 1) (counts.getD (a - 1) 0 + 1))
        (by rw [List.length_set]; exact hlen)
        (fun x hx => hv x (by simp [hx]))
      rw [sum_set_getD counts (a - 1) (by omega)] at h2
      simp at h2 ⊢
      omega

/-- Value of the cumulative-percentage loop at a given index. -/
theorem cumulativeLoop_getD (g : Nat) :
    ∀ (counts : List Nat) (acc i : Nat), i < counts.length →
      (cumulativeLoop g counts acc).getD i 0
        = (((acc + (counts.take (i + 1)).sum : Nat) : ℚ)) / g * 100 := by
  intro counts
  induction counts with
  | nil => intro acc i h; simp at h
  | cons c cs ih =>
    intro acc i h
    cases i with
    | zero => simp [cumulativeLoop]
    | succ i2 =>
      simp only [cumulativeLoop, List.getD_cons_succ]
      rw [ih (acc + c) i2 (by simp at h; omega)]
      have : acc + c + (cs.take (i2 + 1)).sum
          = acc + ((c :: cs).take (i2 + 1 + 1)).sum := by
        simp [List.take, List.sum_cons]
        omega
      rw [this]

/-- C4: each histogram bucket counts the games that succeeded on that
attempt, failed games increment no bucket, the cumulative percentage at
index i is 100 times the prefix sum divided by the configured game
count, and the spec's N=3, 4-game example evaluates as stated. -/
theorem aggregation_histogram_cumulative :
    (∀ (n : Nat) (os : List (Option Nat)),
      (∀ a : Nat, some a ∈ os → 1 ≤ a ∧ a ≤ n) →
      ∀ b : Nat, b < n →
        (attempt_counts n os).getD b 0 = os.count (some (b + 1))) ∧
    (∀ (num_games : Nat) (counts : List Nat) (i : Nat),
      i < counts.length →
      (cumulative_percentage num_games counts).getD i 0
        = 100 * (((counts.take (i + 1)).sum : ℚ)) / num_games) ∧
    attempt_counts 3 [some 1, none, some 2, some 2] = [1, 2, 0] ∧
    cumulative_percentage 4 [1, 2, 0] = [25, 75, 75] ∧
    (attempt_counts 3 [some 1, none, some 2, some 2]).sum = 3 ∧
    4 - (attempt_counts 3 [some 1, none, some 2, some 2]).sum = 1 := by
  refine ⟨?_, ?_, by decide, ?_, by decide, by decide⟩
  · intro n os hv b hb
    rw [attempt_counts,
      foldl_record_getD n os (List.replicate n 0) (by simp) hv b hb,
      getD_replicate_zero]
    omega
  · intro g counts i hi
    rw [cumulative_percentage, cumulativeLoop_getD g counts 0 i hi]
    push_cast
    ring
  · norm_num [cumulative_percentage, cumulativeLoop]

/-- Witness for `aggregation_histogram_cumulative`: bucket 2 of the
spec's example histogram counts the two games that succeeded on attempt
2, and its first cumulative percentage is 100 times 1/4. -/
theorem aggregation_histogram_cumulative_witness :
    (attempt_counts 3 [some 1, none, some 2, some 2]).getD 1 0
      = [some 1, none, some 2, some 2].count (some (1 + 1)) ∧
    (cumulative_percentage 4 [1, 2, 0]).getD 0 0
      = 100 * (((([1, 2, 0] : List Nat).take (0 + 1)).sum : ℚ)) / ((4 : Nat) : ℚ) :=
  ⟨aggregation_histogram_cumulative.1 3 [some 1, none, some 2, some 2]
      (fun a ha => by simp at ha; omega) 1 (by decide),
    aggregation_histogram_cumulative.2.1 4 [1, 2, 0] 0 (by decide)⟩

/-- C9: the histogram buckets plus the failed games account for every
game run (so the bucket total never exceeds the games run and the
shortfall is exactly the exhausted games), and in the final record
`games_completed` is the bucket total and
`games_completed + games_failed` is `num_games`. -/
theorem histogram_accounting_invariant :
    ∀ (n : Nat) (os : List (Option Nat)),
      (∀ a : Nat, some a ∈ os → 1 ≤ a ∧ a ≤ n) →
      (attempt_counts n os).sum + os.count none = os.length ∧
      (attempt_counts n os).sum ≤ os.length ∧
      ∀ api model ts : List Char,
        (mkResults api model ts n os.length
            (attempt_counts n os)).games_completed
          = (attempt_counts n os).sum ∧
        (mkResults api model ts n os.length
            (attempt_counts n os)).games_completed
          + (mkResults api model ts n os.length
              (attempt_counts n os)).games_failed
          = os.length := by
  intro n os hv
  have h := foldl_record_sum n os (List.replicate n 0) (by simp) hv
  rw [sum_replicate_zero] at h
  have h1 : (attempt_counts n os).sum + os.count none = os.length := by
    rw [attempt_counts]
    omega
  refine ⟨h1, by omega, fun api model ts => ⟨rfl, ?_⟩⟩
  simp only [mkResults]
  omega

/-- Witness for `histogram_accounting_invariant`: the accounting at the
spec's N=3 example, where 3 completed and 1 failed game make up the 4
games run. -/
theorem histogram_accounting_invariant_witness :
    (attempt_counts 3 [some 1, none, some 2, some 2]).sum
      + [some 1, none, some 2, some 2].count none = 4 :=
  (histogram_accounting_invariant 3 [some 1, none, some 2, some 2]
    (fun a ha => by simp at ha; omega)).1

/-- A responder answering NEGATIVE to everything never ends the guessing
loop early: the whole sequence is exhausted. -/
theorem guessLoop_all_negative (ρ : Responder) (fuel : Nat)
    (hfuel : 1 ≤ fuel)
    (hneg : ∀ j, ∃ r, ρ j = Except.ok r ∧
      classify r = ResponseClass.NEGATIVE) :
    ∀ (l : List Nat) (a i : Nat),
      (guessLoop ρ fuel l a i).1 = Outcome.exhausted := by
  intro l
  induction l with
  | nil => intro a i; simp [guessLoop]
  | cons g gs ih =>
    intro a i
    obtain ⟨f, rfl⟩ : ∃ f, fuel = f + 1 := ⟨fuel - 1, by omega⟩
    obtain ⟨r, hr, hcl⟩ := hneg i
    simp [guessLoop, repairCalls, hr, hcl, ih]

/-- C6: a game with no AFFIRMATIVE reply across the whole permutation
ends in the failure value, not an exception; the runner's histogram over
the remaining games is unaffected by the failed game (every bucket
unchanged, later games still processed) while the failed-game count goes
up by one. -/
theorem exhaustion_recorded_not_crash :
    (∀ (ρ : Responder) (fuel : Nat) (l : List Nat),
      1 ≤ fuel →
      (∀ j, ∃ r, ρ j = Except.ok r ∧
        classify r = ResponseClass.NEGATIVE) →
      play_single_game ρ fuel l = Outcome.exhausted) ∧
    (∀ (n : Nat) (os1 os2 : List (Option Nat)),
      attempt_counts n (os1 ++ none :: os2)
        = attempt_counts n (os1 ++ os2)) ∧
    (∀ (os1 os2 : List (Option Nat)),
      (os1 ++ none :: os2).count none
        = (os1 ++ os2).count none + 1) := by
  refine ⟨?_, ?_, ?_⟩
  · intro ρ fuel l hfuel hneg
    obtain ⟨r0, hr0, _⟩ := hneg 0
    simp [play_single_game, hr0,
      guessLoop_all_negative ρ fuel hfuel hneg l 0 1]
  · intro n os1 os2
    simp [attempt_counts, List.foldl_append, recordResult]
  · intro os1 os2
    simp [List.count_append, List.count_cons]
    omega

/-- Witness for `exhaustion_recorded_not_crash`: an always-NEGATIVE
responder over the two-guess sequence [4, 9] exhausts it. -/
theorem exhaustion_recorded_not_crash_witness :
    play_single_game (fun _ => Except.ok "not correct".data) 1 [4, 9]
      = Outcome.exhausted :=
  exhaustion_recorded_not_crash.1 _ 1 [4, 9] (by decide)
    (fun j => ⟨"not correct".data, rfl, by decide⟩)

/-- C3 counterexample: `baseline.py`'s gateway does not propagate a
raising transport call; the caller receives the substituted reply
`None` instead of the exception. -/
theorem gateway_error_not_propagated_cex :
    call_openai_api (Except.error ApiError.transport) = Except.ok none ∧
    call_openai_api (Except.error ApiError.transport)
      ≠ Except.error ApiError.transport :=
  ⟨rfl, by simp [call_openai_api]⟩

/-- C3 amended: `run_game.py`'s `call_api` re-raises transport errors
and `play_single_game` fails the in-progress game with that exception,
substituting nothing; `baseline.py`'s `call_openai_api` instead catches
the exception and hands the driver a substituted `None` reply. -/
theorem gateway_error_propagation_amended :
    (∀ e, call_api (Except.error e) = Except.error e) ∧
    (∀ s, call_api (Except.ok s) = Except.ok s) ∧
    (∀ (ρ : Responder) (fuel : Nat) (l : List Nat) (e : ApiError),
      ρ 0 = Except.error e →
      play_single_game ρ fuel l = Outcome.apiError e) ∧
    (∀ (ρ : Responder) (fuel : Nat) (l : List Nat) (a i : Nat)
      (e : ApiError),
      ρ i = Except.error e → 1 ≤ fuel → l ≠ [] →
      (guessLoop ρ fuel l a i).1 = Outcome.apiError e) ∧
    (∀ e, call_openai_api (Except.error e) = Except.ok none) := by
  refine ⟨fun e => rfl, fun s => rfl, ?_, ?_, fun e => rfl⟩
  · intro ρ fuel l e h
    simp [play_single_game, h]
  · intro ρ fuel l a i e h hfuel hl
    obtain ⟨f, rfl⟩ : ∃ f, fuel = f + 1 := ⟨fuel - 1, by omega⟩
    cases l with
    | nil => exact absurd rfl hl
    | cons g gs => simp [guessLoop, repairCalls, h]

/-- Witness for `gateway_error_propagation_amended`: a transport error
on the setup call fails the game with that very exception. -/
theorem gateway_error_propagation_amended_witness :
    play_single_game (fun _ => Except.error ApiError.transport) 3 [1]
      = Outcome.apiError ApiError.transport :=
  gateway_error_propagation_amended.2.2.1 _ 3 [1] ApiError.transport rfl

/-- The cumulative-percentage list is parallel to the counts list. -/
theorem cumulativeLoop_length (g : Nat) :
    ∀ (counts : List Nat) (acc : Nat),
      (cumulativeLoop g counts acc).length = counts.length := by
  intro counts
  induction counts with
  | nil => intro acc; rfl
  | cons c cs ih => intro acc; simp [cumulativeLoop, ih]

/-- C7: the serialized record consists of exactly the nine fields
`api_provider`, `model`, `timestamp`, `number_range`, `num_games`,
`attempt_counts`, `cumulative_percentage`, `games_completed` and
`games_failed`, with `attempt_counts` holding one integer per attempt
index 1..N and `cumulative_percentage` parallel to it. -/
theorem results_record_fields :
    ∀ (api model ts : List Char) (n num_games : Nat)
      (os : List (Option Nat)),
      (mkResults api model ts n num_games
        (attempt_counts n os)).api_provider = api ∧
      (mkResults api model ts n num_games
        (attempt_counts n os)).model = model ∧
      (mkResults api model ts n num_games
        (attempt_counts n os)).timestamp = ts ∧
      (mkResults api model ts n num_games
        (attempt_counts n os)).number_range = n ∧
      (mkResults api model ts n num_games
        (attempt_counts n os)).num_games = num_games ∧
      (mkResults api model ts n num_games
        (attempt_counts n os)).attempt_counts.length = n ∧
      (mkResults api model ts n num_games
        (attempt_counts n os)).cumulative_percentage.length = n ∧
      mkResults api model ts n num_games (attempt_counts n os)
        = ⟨api, model, ts, n, num_games, attempt_counts n os,
            cumulative_percentage num_games (attempt_counts n os),
            (attempt_counts n os).sum,
            num_games - (attempt_counts n os).sum⟩ := by
  intro api model ts n num_games os
  have hlen : (attempt_counts n os).length = n := by
    rw [attempt_counts, foldl_record_length]
    simp
  exact ⟨rfl, rfl, rfl, rfl, rfl, hlen,
    by simp only [mkResults, cumulative_percentage, cumulativeLoop_length,
      hlen], rfl⟩

/-- Python's list-prefix comparison used by the substring test. -/
def beginsWith : List Char → List Char → Bool
  | [], _ => true
  | _ :: _, [] => false
  | a :: as, b :: bs => (a == b) && beginsWith as bs

/-- Python's substring test `needle in hay`. -/
def strContains (needle : List Char) : List Char → Bool
  | [] => beginsWith needle []
  | c :: t => beginsWith needle (c :: t) || strContains needle t

/-- `baseline.py` line 61: the repair-loop exit condition
`response.lower() in ['correct', 'not correct']` (no strip there). -/
def baselineRepairExit (response : List Char) : Bool :=
  pyLower response == "correct".data ||
  pyLower response == "not correct".data

/-- `baseline.py` line 68: the success test
`'correct' in response.lower() and 'not correct' not in
response.lower()`. -/
def baselineSuccessCheck (response : List Char) : Bool :=
  strContains "correct".data (pyLower response) &&
  !(strContains "not correct".data (pyLower response))

/-- `run_game.py` lines 178 and 188: the success test
`response.lower().strip() == 'correct'`. -/
def runGameSuccessCheck (response : List Char) : Bool :=
  normalize response == "correct".data

/-- C10: on every reply satisfying `baseline.py`'s repair-loop exit
condition, the substring-containment success test of `baseline.py`
decides exactly as the exact-equality success test of `run_game.py`. -/
theorem success_checks_agree_after_repair :
    ∀ response : List Char, baselineRepairExit response = true →
      baselineSuccessCheck response = runGameSuccessCheck response := by
  intro response h
  rw [baselineRepairExit, Bool.or_eq_true, beq_iff_eq, beq_iff_eq] at h
  rcases h with h | h
  · simp only [baselineSuccessCheck, runGameSuccessCheck, normalize]
    rw [h]
    decide
  · simp only [baselineSuccessCheck, runGameSuccessCheck, normalize]
    rw [h]
    decide

/-- Witness for `success_checks_agree_after_repair`: both checks accept
the reply `correct` and both reject the reply `Not Correct`. -/
theorem success_checks_agree_after_repair_witness :
    baselineSuccessCheck "correct".data
      = runGameSuccessCheck "correct".data ∧
    baselineSuccessCheck "Not Correct".data
      = runGameSuccessCheck "Not Correct".data :=
  ⟨success_checks_agree_after_repair "correct".data (by decide),
    success_checks_agree_after_repair "Not Correct".data (by decide)⟩

end GuessGame
